import Mathlib

/-!
Verification of the rocFFT runtime kernel-generation subsystem.

Shallow embedding of:
  * `RTCKernel::runtime_compile` (dispatch chain over kernel families),
  * `RTCKernel::launch` (limits check before driver launch),
  * the real/complex kernel family generators in `rtc_realcomplex_gen.cpp`
    (`realcomplex_rtc_kernel_name`, `realcomplex_rtc`, `r2c_copy_rtc`,
     `realcomplex_even_rtc_kernel_name`, `realcomplex_even_rtc`,
     `realcomplex_even_transpose_rtc_kernel_name`).
-/

/-- The compute-scheme enumeration, restricted to the members handled by the
real/complex kernel family generators.  `CS_OTHER` stands for every other
member of the scheme enumeration (all of which fall into the generators'
`default:` switch cases). -/
inductive ComputeScheme where
  | CS_KERNEL_COPY_R_TO_CMPLX
  | CS_KERNEL_COPY_CMPLX_TO_HERM
  | CS_KERNEL_COPY_CMPLX_TO_R
  | CS_KERNEL_COPY_HERM_TO_CMPLX
  | CS_KERNEL_R_TO_CMPLX
  | CS_KERNEL_CMPLX_TO_R
  | CS_KERNEL_R_TO_CMPLX_TRANSPOSE
  | CS_KERNEL_TRANSPOSE_CMPLX_TO_R
  | CS_OTHER
  deriving DecidableEq, Repr

/-- Numeric precision of a kernel spec. -/
inductive Precision where
  | half
  | single
  | double
  deriving DecidableEq, Repr

/-- Array layout of an input or output buffer. -/
inductive ArrayType where
  | complex_interleaved
  | complex_planar
  | real
  | hermitian_interleaved
  | hermitian_planar
  deriving DecidableEq, Repr

/-- Load/store callback configuration of a kernel spec. -/
inductive CallbackType where
  | NONE
  | USER_LOAD_STORE
  deriving DecidableEq, Repr

/-- Modelled from the spec: `rtc_precision_name` (defined outside the given
sources) maps a precision to its name tag. -/
def rtc_precision_name : Precision → String
  | Precision.half => "_fp16"
  | Precision.single => "_fp32"
  | Precision.double => "_fp64"

/-- Modelled from the spec: `rtc_array_type_name` (defined outside the given
sources) maps an array layout to its name tag. -/
def rtc_array_type_name : ArrayType → String
  | ArrayType.complex_interleaved => "_CI"
  | ArrayType.complex_planar => "_CP"
  | ArrayType.real => "_R"
  | ArrayType.hermitian_interleaved => "_HI"
  | ArrayType.hermitian_planar => "_HP"

/-- Modelled from the spec: `load_store_name_suffix` (defined outside the
given sources) maps the fused load/store elementwise-operation configuration
to a name suffix; empty when no ops are fused. -/
def load_store_name_suffix (loadOps storeOps : Bool) : String :=
  (if loadOps then "_loadops" else "") ++ (if storeOps then "_storeops" else "")

/-- Modelled from the spec: `rtc_cbtype_name` (defined outside the given
sources) maps the callback configuration to a name tag. -/
def rtc_cbtype_name : CallbackType → String
  | CallbackType.NONE => ""
  | CallbackType.USER_LOAD_STORE => "_CB"

/-- Descriptor for the real/complex copy kernel family
(`RealComplexSpecs`): scheme, dimensionality, precision, input/output
layouts, fused load/store ops, and callback configuration. -/
structure RealComplexSpecs where
  scheme : ComputeScheme
  dim : Nat
  precision : Precision
  inArrayType : ArrayType
  outArrayType : ArrayType
  loadOps : Bool
  storeOps : Bool
  cbtype : CallbackType
  deriving DecidableEq, Repr

/-- Descriptor for the even-length post/pre-process kernel family
(`RealComplexEvenSpecs`): the copy-family fields plus the `Ndiv4` flag. -/
structure RealComplexEvenSpecs where
  scheme : ComputeScheme
  dim : Nat
  precision : Precision
  inArrayType : ArrayType
  outArrayType : ArrayType
  loadOps : Bool
  storeOps : Bool
  cbtype : CallbackType
  Ndiv4 : Bool
  deriving DecidableEq, Repr

/-- Descriptor for the even-length post/pre-process-with-transpose kernel
family (`RealComplexEvenTransposeSpecs`).  `TileX`/`TileY` are the tile
dimensions; the transform dimensionality is a runtime kernel argument in this
family, not a spec field used by name generation. -/
structure RealComplexEvenTransposeSpecs where
  scheme : ComputeScheme
  TileX : Nat
  TileY : Nat
  precision : Precision
  inArrayType : ArrayType
  outArrayType : ArrayType
  loadOps : Bool
  storeOps : Bool
  cbtype : CallbackType
  deriving DecidableEq, Repr

/-- `realcomplex_rtc_kernel_name` from `rtc_realcomplex_gen.cpp`: builds the
copy-family kernel name, or throws (`Except.error`) on an unrecognized
scheme. -/
def realcomplex_rtc_kernel_name (specs : RealComplexSpecs) : Except String String :=
  match specs.scheme with
  | ComputeScheme.CS_KERNEL_COPY_R_TO_CMPLX => Except.ok ("r2c_copy_rtc"
      ++ "_dim" ++ toString specs.dim
      ++ rtc_precision_name specs.precision
      ++ rtc_array_type_name specs.inArrayType
      ++ rtc_array_type_name specs.outArrayType
      ++ load_store_name_suffix specs.loadOps specs.storeOps
      ++ rtc_cbtype_name specs.cbtype)
  | ComputeScheme.CS_KERNEL_COPY_CMPLX_TO_HERM => Except.ok ("c2herm_copy_rtc"
      ++ "_dim" ++ toString specs.dim
      ++ rtc_precision_name specs.precision
      ++ rtc_array_type_name specs.inArrayType
      ++ rtc_array_type_name specs.outArrayType
      ++ load_store_name_suffix specs.loadOps specs.storeOps
      ++ rtc_cbtype_name specs.cbtype)
  | ComputeScheme.CS_KERNEL_COPY_CMPLX_TO_R => Except.ok ("c2r_copy_rtc"
      ++ "_dim" ++ toString specs.dim
      ++ rtc_precision_name specs.precision
      ++ rtc_array_type_name specs.inArrayType
      ++ rtc_array_type_name specs.outArrayType
      ++ load_store_name_suffix specs.loadOps specs.storeOps
      ++ rtc_cbtype_name specs.cbtype)
  | ComputeScheme.CS_KERNEL_COPY_HERM_TO_CMPLX => Except.ok ("herm2c_copy_rtc"
      ++ "_dim" ++ toString specs.dim
      ++ rtc_precision_name specs.precision
      ++ rtc_array_type_name specs.inArrayType
      ++ rtc_array_type_name specs.outArrayType
      ++ load_store_name_suffix specs.loadOps specs.storeOps
      ++ rtc_cbtype_name specs.cbtype)
  | _ => Except.error "invalid realcomplex rtc scheme"

/-- Whether a scheme is one of the four recognized copy schemes of the
real/complex copy family (the cases of the switches in
`realcomplex_rtc_kernel_name` and `realcomplex_rtc`). -/
def isCopyScheme : ComputeScheme → Bool
  | ComputeScheme.CS_KERNEL_COPY_R_TO_CMPLX => true
  | ComputeScheme.CS_KERNEL_COPY_CMPLX_TO_HERM => true
  | ComputeScheme.CS_KERNEL_COPY_CMPLX_TO_R => true
  | ComputeScheme.CS_KERNEL_COPY_HERM_TO_CMPLX => true
  | _ => false

/-- The per-dimension conjugate-mirror index computed by `r2c_copy_rtc` for
the hermitian-to-complex scheme: `Ternary{is == 0, 0, lengths - is}`. -/
def mirror (len i : Nat) : Nat :=
  if i = 0 then 0 else len - i

/-- The kernel families tried by `RTCKernel::runtime_compile`, named after
their `RTCKernel` subclasses. -/
inductive RTCFamily where
  | RTCKernelStockham
  | RTCKernelTranspose
  | RTCKernelRealComplex
  | RTCKernelRealComplexEven
  | RTCKernelRealComplexEvenTranspose
  | RTCKernelBluesteinSingle
  | RTCKernelBluesteinMulti
  deriving DecidableEq, Repr

/-- The result of a family's `generate_from_node`: an `RTCGenerator` whose
`valid` flag says whether the family accepts the transform-stage description,
whose `pre_compiled` flag marks the precompiled-kernel case, and whose `name`
stands for `generate_name()`. -/
structure RTCGenerator where
  valid : Bool
  pre_compiled : Bool
  name : String
  deriving DecidableEq, Repr

/-- The fixed priority order of `RTCKernel::runtime_compile`'s dispatch
chain, exactly as the successive `generate_from_node` calls appear in the
source. -/
def family_order : List RTCFamily :=
  [RTCFamily.RTCKernelStockham,
   RTCFamily.RTCKernelTranspose,
   RTCFamily.RTCKernelRealComplex,
   RTCFamily.RTCKernelRealComplexEven,
   RTCFamily.RTCKernelRealComplexEvenTranspose,
   RTCFamily.RTCKernelBluesteinSingle,
   RTCFamily.RTCKernelBluesteinMulti]

/-- Position of a family in the priority order. -/
def family_rank : RTCFamily → Nat
  | RTCFamily.RTCKernelStockham => 0
  | RTCFamily.RTCKernelTranspose => 1
  | RTCFamily.RTCKernelRealComplex => 2
  | RTCFamily.RTCKernelRealComplexEven => 3
  | RTCFamily.RTCKernelRealComplexEvenTranspose => 4
  | RTCFamily.RTCKernelBluesteinSingle => 5
  | RTCFamily.RTCKernelBluesteinMulti => 6

/-- The dispatch chain of `RTCKernel::runtime_compile`: try each family's
`generate_from_node` in turn until one is valid.  `gen` is the environment
mapping each family to the generator its `generate_from_node` returns for
the stage at hand.  Returns the resulting generator together with the list
of families whose `generate_from_node` was actually invoked, in invocation
order (mirroring the `if(!generator.valid())` chain of the source). -/
def runtime_compile_dispatch (gen : RTCFamily → RTCGenerator) :
    RTCGenerator × List RTCFamily :=
  let g1 := gen RTCFamily.RTCKernelStockham
  if g1.valid then (g1, family_order.take 1) else
  let g2 := gen RTCFamily.RTCKernelTranspose
  if g2.valid then (g2, family_order.take 2) else
  let g3 := gen RTCFamily.RTCKernelRealComplex
  if g3.valid then (g3, family_order.take 3) else
  let g4 := gen RTCFamily.RTCKernelRealComplexEven
  if g4.valid then (g4, family_order.take 4) else
  let g5 := gen RTCFamily.RTCKernelRealComplexEvenTranspose
  if g5.valid then (g5, family_order.take 5) else
  let g6 := gen RTCFamily.RTCKernelBluesteinSingle
  if g6.valid then (g6, family_order.take 6) else
  let g7 := gen RTCFamily.RTCKernelBluesteinMulti
  (g7, family_order.take 7)

/-- Observable outcome of `RTCKernel::runtime_compile`: the kernel the
returned future yields (`none` is the null `RTCKernel`, meaning "use a
statically compiled fallback kernel"), and the compile jobs scheduled. -/
structure RuntimeCompileResult where
  kernel : Option String
  compiled : List String
  deriving DecidableEq, Repr

/-- `RTCKernel::runtime_compile`: under `ROCFFT_RUNTIME_COMPILE` it queries
the device (throwing on failure), runs the dispatch chain, and if a valid
generator was found schedules an async compile of the generated kernel;
otherwise (including the `is_pre_compiled` case and the case where runtime
compilation is disabled) it returns a ready future holding a null kernel. -/
def RTCKernel.runtime_compile (rtcEnabled deviceOk : Bool)
    (gen : RTCFamily → RTCGenerator) : Except String RuntimeCompileResult :=
  if rtcEnabled then
    if !deviceOk then Except.error "failed to get device"
    else
      let g := (runtime_compile_dispatch gen).1
      if g.valid then Except.ok ⟨some g.name, [g.name]⟩
      else Except.ok ⟨none, []⟩
  else Except.ok ⟨none, []⟩

/-- Events observable at the device-driver boundary during
`RTCKernel::launch`. -/
inductive LaunchEvent where
  | limitsCheck
  | driverLaunch
  deriving DecidableEq, Repr

/-- Modelled from the spec: `launch_limits_check` (defined outside the given
sources) validates the launch geometry against the device's hardware limits
and throws a descriptive error on a violation.  `limitsOk` abstracts whether
the geometry is within the device limits. -/
def launch_limits_check (kernel_name : String) (limitsOk : Bool) :
    Except String Unit :=
  if limitsOk then Except.ok ()
  else Except.error ("launch geometry for " ++ kernel_name ++ " exceeds device limits")

/-- `RTCKernel::launch`: first `launch_limits_check`, then (only if that
passed) `hipModuleLaunchKernel`, whose failure is thrown as
"hipModuleLaunchKernel failure".  Returns the outcome together with the
trace of driver-boundary events in the order they happen.  `driverOk`
abstracts whether the driver launch call succeeds. -/
def RTCKernel.launch (kernel_name : String) (limitsOk driverOk : Bool) :
    Except String Unit × List LaunchEvent :=
  match launch_limits_check kernel_name limitsOk with
  | Except.error e => (Except.error e, [LaunchEvent.limitsCheck])
  | Except.ok _ =>
    if driverOk then
      (Except.ok (), [LaunchEvent.limitsCheck, LaunchEvent.driverLaunch])
    else
      (Except.error "hipModuleLaunchKernel failure",
       [LaunchEvent.limitsCheck, LaunchEvent.driverLaunch])

/-- `realcomplex_even_rtc_kernel_name` from `rtc_realcomplex_gen.cpp`:
builds the even-length post/pre-process kernel name, or throws on an
unrecognized scheme. -/
def realcomplex_even_rtc_kernel_name (specs : RealComplexEvenSpecs) :
    Except String String :=
  match specs.scheme with
  | ComputeScheme.CS_KERNEL_R_TO_CMPLX => Except.ok ("r2c_even_post"
      ++ (if specs.Ndiv4 then "_Ndiv4" else "")
      ++ "_dim" ++ toString specs.dim
      ++ rtc_precision_name specs.precision
      ++ rtc_array_type_name specs.inArrayType
      ++ rtc_array_type_name specs.outArrayType
      ++ load_store_name_suffix specs.loadOps specs.storeOps
      ++ rtc_cbtype_name specs.cbtype)
  | ComputeScheme.CS_KERNEL_CMPLX_TO_R => Except.ok ("c2r_even_pre"
      ++ (if specs.Ndiv4 then "_Ndiv4" else "")
      ++ "_dim" ++ toString specs.dim
      ++ rtc_precision_name specs.precision
      ++ rtc_array_type_name specs.inArrayType
      ++ rtc_array_type_name specs.outArrayType
      ++ load_store_name_suffix specs.loadOps specs.storeOps
      ++ rtc_cbtype_name specs.cbtype)
  | _ => Except.error "invalid realcomplex even rtc scheme"

/-- `realcomplex_even_transpose_rtc_kernel_name` from
`rtc_realcomplex_gen.cpp`: builds the even-length-with-transpose kernel
name, or throws on an unrecognized scheme.  Note there is no dimensionality
tag: a tile-size tag takes its place. -/
def realcomplex_even_transpose_rtc_kernel_name
    (specs : RealComplexEvenTransposeSpecs) : Except String String :=
  match specs.scheme with
  | ComputeScheme.CS_KERNEL_R_TO_CMPLX_TRANSPOSE => Except.ok ("r2c_even_post_transpose"
      ++ "_tile" ++ toString specs.TileX ++ "x" ++ toString specs.TileY
      ++ rtc_precision_name specs.precision
      ++ rtc_array_type_name specs.inArrayType
      ++ rtc_array_type_name specs.outArrayType
      ++ load_store_name_suffix specs.loadOps specs.storeOps
      ++ rtc_cbtype_name specs.cbtype)
  | ComputeScheme.CS_KERNEL_TRANSPOSE_CMPLX_TO_R => Except.ok ("transpose_c2r_even_pre"
      ++ "_tile" ++ toString specs.TileX ++ "x" ++ toString specs.TileY
      ++ rtc_precision_name specs.precision
      ++ rtc_array_type_name specs.inArrayType
      ++ rtc_array_type_name specs.outArrayType
      ++ load_store_name_suffix specs.loadOps specs.storeOps
      ++ rtc_cbtype_name specs.cbtype)
  | _ => Except.error "invalid realcomplex even transpose rtc scheme"

/-- The scheme-specific mnemonic the copy family's name starts with. -/
def copy_mnemonic : ComputeScheme → String
  | ComputeScheme.CS_KERNEL_COPY_R_TO_CMPLX => "r2c_copy_rtc"
  | ComputeScheme.CS_KERNEL_COPY_CMPLX_TO_HERM => "c2herm_copy_rtc"
  | ComputeScheme.CS_KERNEL_COPY_CMPLX_TO_R => "c2r_copy_rtc"
  | ComputeScheme.CS_KERNEL_COPY_HERM_TO_CMPLX => "herm2c_copy_rtc"
  | _ => ""

/-- The scheme-specific mnemonic the even family's name starts with. -/
def even_mnemonic : ComputeScheme → String
  | ComputeScheme.CS_KERNEL_R_TO_CMPLX => "r2c_even_post"
  | ComputeScheme.CS_KERNEL_CMPLX_TO_R => "c2r_even_pre"
  | _ => ""

/-- The scheme-specific mnemonic the even-transpose family's name starts
with. -/
def even_transpose_mnemonic : ComputeScheme → String
  | ComputeScheme.CS_KERNEL_R_TO_CMPLX_TRANSPOSE => "r2c_even_post_transpose"
  | ComputeScheme.CS_KERNEL_TRANSPOSE_CMPLX_TO_R => "transpose_c2r_even_pre"
  | _ => ""

/-- Whether `pat` is an initial segment of `s` (executable helper for
reasoning about kernel-name shapes). -/
def charsStartWith : List Char → List Char → Bool
  | [], _ => true
  | _ :: _, [] => false
  | p :: ps, c :: cs => p == c && charsStartWith ps cs

/-- Whether `pat` occurs contiguously anywhere inside `s` (executable
helper for reasoning about kernel-name shapes). -/
def charsContain (pat : List Char) : List Char → Bool
  | [] => charsStartWith pat []
  | c :: cs => charsStartWith pat (c :: cs) || charsContain pat cs

/-- The string extracted from an `Except.ok`; empty on error. -/
def okString : Except String String → String
  | Except.ok s => s
  | Except.error _ => ""

/-- A complex value of the generated kernels, with exact (integer)
components so that the data movement of the copy kernels can be stated
exactly. -/
structure CVal where
  re : Int
  im : Int
  deriving DecidableEq, Repr

/-- Scalar arguments of the hermitian-to-complex copy kernel generated by
`r2c_copy_rtc` for `CS_KERNEL_COPY_HERM_TO_CMPLX`. -/
structure Herm2CArgs where
  hermitian_size : Nat
  lengths0 : Nat
  lengths1 : Nat
  lengths2 : Nat
  nbatch : Nat
  dim : Nat
  stride_in0 : Nat
  stride_in1 : Nat
  stride_in2 : Nat
  stride_in3 : Nat
  stride_out0 : Nat
  stride_out1 : Nat
  stride_out2 : Nat
  stride_out3 : Nat
  deriving DecidableEq, Repr

/-- The batch-dimension input stride `"stride_in" + std::to_string(specs.dim)`
selected by the generator. -/
def Herm2CArgs.stride_in_dim (a : Herm2CArgs) : Nat :=
  if a.dim = 1 then a.stride_in1 else if a.dim = 2 then a.stride_in2 else a.stride_in3

/-- The batch-dimension output stride `"stride_out" + std::to_string(specs.dim)`
selected by the generator. -/
def Herm2CArgs.stride_out_dim (a : Herm2CArgs) : Nat :=
  if a.dim = 1 then a.stride_out1 else if a.dim = 2 then a.stride_out2 else a.stride_out3

/-- The per-dimension index decomposition of the copy kernels: successive
modulo/divide of the flat thread index, fastest dimension first, dividing
the fastest dimension by `hermitian_size` for the hermitian-to-complex
scheme.  Returns `(idx_0, idx_1, idx_2, idx_batch)`. -/
def herm2c_indices (a : Herm2CArgs) (global_idx : Nat) : Nat × Nat × Nat × Nat :=
  let i0 := global_idx % a.hermitian_size
  let g1 := global_idx / a.hermitian_size
  let i1 := if 1 < a.dim then g1 % a.lengths1 else 0
  let g2 := if 1 < a.dim then g1 / a.lengths1 else g1
  let i2 := if 2 < a.dim then g2 % a.lengths2 else 0
  let g3 := if 2 < a.dim then g2 / a.lengths2 else g2
  (i0, i1, i2, g3)

/-- Flat input offset of the direct element read by one thread. -/
def herm2c_input_offset (a : Herm2CArgs) (g : Nat) : Nat :=
  let (i0, i1, i2, ib) := herm2c_indices a g
  i0 * a.stride_in0 + i1 * a.stride_in1 + i2 * a.stride_in2 + ib * a.stride_in_dim

/-- Flat output offset of the direct (straight-copy) element. -/
def herm2c_direct_offset (a : Herm2CArgs) (g : Nat) : Nat :=
  let (i0, i1, i2, ib) := herm2c_indices a g
  i0 * a.stride_out0 + i1 * a.stride_out1 + i2 * a.stride_out2 + ib * a.stride_out_dim

/-- Flat output offset of the conjugate-mirror element: each dimension's
index is replaced by its conjugate-mirror index `Ternary{i == 0, 0, length - i}`. -/
def herm2c_conj_offset (a : Herm2CArgs) (g : Nat) : Nat :=
  let (i0, i1, i2, ib) := herm2c_indices a g
  mirror a.lengths0 i0 * a.stride_out0 + mirror a.lengths1 i1 * a.stride_out1
    + mirror a.lengths2 i2 * a.stride_out2 + ib * a.stride_out_dim

/-- The ordered list of `(offset, value)` global-memory writes performed by
the thread with flat index `global_idx` of the hermitian-to-complex kernel
generated by `r2c_copy_rtc` for `CS_KERNEL_COPY_HERM_TO_CMPLX`.  Mirrors
the generated control flow: batch guard; then the `is0 == 0 || is0 * 2 ==
lengths0` branch writes the loaded element and returns; then the
`is0 < hermitian_size` branch writes the element and, at the conjugate
offset, the element with negated imaginary part. -/
def herm2c_thread_writes (a : Herm2CArgs) (input : Nat → CVal)
    (global_idx : Nat) : List (Nat × CVal) :=
  let i0 := global_idx % a.hermitian_size
  let idx_batch := (herm2c_indices a global_idx).2.2.2
  if a.nbatch ≤ idx_batch then []
  else
    let elem := input (herm2c_input_offset a global_idx)
    if i0 = 0 ∨ i0 * 2 = a.lengths0 then
      [(herm2c_direct_offset a global_idx, elem)]
    else if i0 < a.hermitian_size then
      [(herm2c_direct_offset a global_idx, elem),
       (herm2c_conj_offset a global_idx, ⟨elem.re, -elem.im⟩)]
    else []

/-- The list of output indexes (offsets from `output_offset`) written by one
thread of the even-length post-process kernel generated by
`realcomplex_even_rtc` for `CS_KERNEL_R_TO_CMPLX`, mirroring the generated
control flow: the `idx_p < quarter_N` guard; inside it the `idx_p == 0`
branch writes indexes `half_N` and `0` and, when `Ndiv4` is set, also
`quarter_N`; the `else` branch (general butterfly) writes `idx_p` and
`idx_q = half_N - idx_p`. -/
def even_post_thread_writes (half_N : Nat) (Ndiv4 : Bool) (idx_p : Nat) :
    List Nat :=
  let idx_q := half_N - idx_p
  let quarter_N := (half_N + 1) / 2
  if idx_p < quarter_N then
    if idx_p = 0 then
      [half_N, 0] ++ (if Ndiv4 then [quarter_N] else [])
    else
      [idx_p, idx_q]
  else []

/-- Abstract statement of the generated kernel body, keeping the statement
kinds and order of the generator's IR and flagging which statements read or
write the global input/output buffers.  `batchGuardRet` is the statement
`If{idx_batch >= nbatch, {Return{}}}`. -/
inductive GStmt where
  | comment : GStmt
  | declare (readsBuf : Bool) : GStmt
  | assign (readsBuf writesBuf : Bool) : GStmt
  | ret : GStmt
  | batchGuardRet : GStmt
  | ifBlock (body : List GStmt) : GStmt

mutual

/-- Whether a statement (or a statement nested in it) loads from or stores
to a global buffer. -/
def GStmt.accessesGlobal : GStmt → Bool
  | GStmt.comment => false
  | GStmt.declare r => r
  | GStmt.assign r w => r || w
  | GStmt.ret => false
  | GStmt.batchGuardRet => false
  | GStmt.ifBlock body => GStmt.listAccessesGlobal body

/-- Whether any statement of the list accesses a global buffer. -/
def GStmt.listAccessesGlobal : List GStmt → Bool
  | [] => false
  | s :: rest => GStmt.accessesGlobal s || GStmt.listAccessesGlobal rest

end

/-- The flat-thread-index decomposition statements of `r2c_copy_rtc`
(source lines 127-161): declare `global_idx`; comment; per-dimension
modulo/divide pairs (a plain zero declaration when the dimension is
absent); declare `idx_batch`.  None of these touch the buffers. -/
def r2c_index_decomp (specs : RealComplexSpecs) : List GStmt :=
  [GStmt.declare false,          -- global_idx = blockIdx.x * blockDim.x + threadIdx.x
   GStmt.comment,                -- "per-dimension indexes"
   GStmt.declare false,          -- idx_0 = global_idx % lengths0_divide
   GStmt.assign false false]     -- global_idx = global_idx / lengths0_divide
  ++ (if 1 < specs.dim then
        [GStmt.declare false, GStmt.assign false false]   -- idx_1, divide
      else [GStmt.declare false])                         -- idx_1 = 0
  ++ (if 2 < specs.dim then
        [GStmt.declare false, GStmt.assign false false]   -- idx_2, divide
      else [GStmt.declare false])                         -- idx_2 = 0
  ++ [GStmt.declare false]       -- idx_batch = global_idx

/-- The scheme-specific tail of the `r2c_copy_rtc` body (source lines
166-286), following the batch guard. -/
def r2c_copy_rest (specs : RealComplexSpecs) : List GStmt :=
  if specs.scheme = ComputeScheme.CS_KERNEL_COPY_HERM_TO_CMPLX then
    [GStmt.declare false,        -- input_offset
     GStmt.comment,              -- "straight copy indices"
     GStmt.declare false,        -- is0
     GStmt.declare false,        -- is1
     GStmt.declare false,        -- is2
     GStmt.comment,              -- "conjugate copy indices"
     GStmt.declare false,        -- ic0
     GStmt.declare false,        -- ic1
     GStmt.declare false,        -- ic2
     GStmt.declare false,        -- outputs_offset
     GStmt.declare false,        -- outputc_offset
     GStmt.declare false,        -- CallbackLoadDeclaration
     GStmt.declare false,        -- CallbackStoreDeclaration
     GStmt.comment,              -- "we would do hermitian2complex ..."
     GStmt.declare false,        -- outputs = output + outputs_offset
     GStmt.declare false,        -- outputc = output + outputc_offset
     GStmt.comment,              -- "simply write the element to output"
     GStmt.ifBlock               -- write_simple: is0 == 0 || is0 * 2 == lengths0
       [GStmt.comment,
        GStmt.assign true true,  -- outputs[0] = LoadGlobal{input, input_offset}
        GStmt.ret],
     GStmt.ifBlock               -- write_conj: is0 < hermitian_size
       [GStmt.declare false,     -- elem
        GStmt.assign true false, -- elem = LoadGlobal{input, input_offset}
        GStmt.assign false true, -- outputs[0] = elem
        GStmt.assign false false, -- elem.y = -elem.y
        GStmt.assign false true]] -- outputc[0] = elem
  else
    [GStmt.declare false,        -- inputIdx
     GStmt.declare false]        -- outputIdx
    ++ (if specs.scheme = ComputeScheme.CS_KERNEL_COPY_R_TO_CMPLX then
         [GStmt.ifBlock          -- guard: idx_0 < lengths0
           [GStmt.comment,
            GStmt.declare false, -- CallbackLoadDeclaration
            GStmt.declare false, -- CallbackStoreDeclaration
            GStmt.assign true true]] -- output[outputIdx] = {LoadGlobal{input, inputIdx}, 0.0}
       else if specs.scheme = ComputeScheme.CS_KERNEL_COPY_CMPLX_TO_HERM then
         [GStmt.comment,         -- "only read and write the first ..."
          GStmt.ifBlock          -- guard: idx_0 < (1 + lengths0 / 2)
           [GStmt.comment,
            GStmt.declare false, -- CallbackLoadDeclaration
            GStmt.declare false, -- CallbackStoreDeclaration
            GStmt.declare true,  -- elem = input[inputIdx]
            GStmt.assign false true]] -- StoreGlobal{output, outputIdx, elem}
       else if specs.scheme = ComputeScheme.CS_KERNEL_COPY_CMPLX_TO_R then
         [GStmt.comment,         -- "we would do complex2real ..."
          GStmt.declare false,   -- CallbackLoadDeclaration
          GStmt.declare false,   -- CallbackStoreDeclaration
          GStmt.declare true,    -- elem = input[inputIdx].x
          GStmt.assign false true] -- StoreGlobal{output, outputIdx, elem}
       else [])

/-- The body of the kernel generated by `r2c_copy_rtc`, statement by
statement in generator order: index decomposition, the comment
"any excess threads will be past the end of batch", the batch guard
`If{idx_batch >= nbatch, {Return{}}}`, then the scheme-specific tail. -/
def r2c_copy_body (specs : RealComplexSpecs) : List GStmt :=
  [GStmt.declare false,
   GStmt.comment,
   GStmt.declare false,
   GStmt.assign false false]
  ++ (if 1 < specs.dim then
        [GStmt.declare false, GStmt.assign false false]
      else [GStmt.declare false])
  ++ (if 2 < specs.dim then
        [GStmt.declare false, GStmt.assign false false]
      else [GStmt.declare false])
  ++ [GStmt.declare false,
      GStmt.comment,
      GStmt.batchGuardRet]
  ++ r2c_copy_rest specs

/-- `realcomplex_rtc` from `rtc_realcomplex_gen.cpp`: for the four copy
schemes it generates the kernel source (modelled by the statement body that
`r2c_copy_rtc` builds); any other scheme throws. -/
def realcomplex_rtc (specs : RealComplexSpecs) : Except String (List GStmt) :=
  match specs.scheme with
  | ComputeScheme.CS_KERNEL_COPY_R_TO_CMPLX => Except.ok (r2c_copy_body specs)
  | ComputeScheme.CS_KERNEL_COPY_CMPLX_TO_HERM => Except.ok (r2c_copy_body specs)
  | ComputeScheme.CS_KERNEL_COPY_CMPLX_TO_R => Except.ok (r2c_copy_body specs)
  | ComputeScheme.CS_KERNEL_COPY_HERM_TO_CMPLX => Except.ok (r2c_copy_body specs)
  | _ => Except.error "invalid realcomplex rtc scheme"

/-- Whether a generation function returned a result rather than throwing. -/
def exceptIsOk {α : Type} : Except String α → Bool
  | Except.ok _ => true
  | Except.error _ => false

/-- Helper: a pattern is an initial segment of itself followed by anything. -/
theorem charsStartWith_self_append (p r : List Char) :
    charsStartWith p (p ++ r) = true := by
  induction p with
  | nil => rfl
  | cons c cs ih => simp [charsStartWith, ih]

/-- Helper: `charsContain` finds a pattern spliced into the middle of a
list. -/
theorem charsContain_of_append (m pat r : List Char) :
    charsContain pat (m ++ (pat ++ r)) = true := by
  induction m with
  | nil =>
    cases h : pat ++ r with
    | nil =>
      have hp : pat = [] := (List.append_eq_nil.mp h).1
      simp [hp, charsContain, charsStartWith]
    | cons c cs =>
      simp only [List.nil_append, h, charsContain]
      rw [← h, charsStartWith_self_append]
      simp
  | cons c m ih =>
    simp [charsContain, ih]

/-- Claim C6: for the hermitian-expansion copy scheme, the per-dimension
conjugate-mirror function satisfies `mirror 0 = 0` and, for every
non-boundary index `i` in `[0, length)`, `mirror (mirror i) = i`. -/
theorem herm2c_mirror_involution (len i : Nat) (h0 : i ≠ 0)
    (_hmid : i * 2 ≠ len) (hlt : i < len) :
    mirror len 0 = 0 ∧ mirror len (mirror len i) = i := by
  refine ⟨by simp [mirror], ?_⟩
  have hne : len - i ≠ 0 := by omega
  simp only [mirror, if_neg h0, if_neg hne]
  omega

/-- Witness for C6 at `len = 5`, `i = 2`. -/
theorem herm2c_mirror_involution_witness :
    mirror 5 0 = 0 ∧ mirror 5 (mirror 5 2) = 2 :=
  herm2c_mirror_involution 5 2 (by decide) (by decide) (by decide)

/-- Claim C2: the copy family's name-generation and source-generation
functions return without error exactly on the four recognized copy schemes,
and throw on every other scheme value. -/
theorem realcomplex_copy_fail_fast (specs : RealComplexSpecs) :
    exceptIsOk (realcomplex_rtc_kernel_name specs) = isCopyScheme specs.scheme
    ∧ exceptIsOk (realcomplex_rtc specs) = isCopyScheme specs.scheme := by
  rcases specs with ⟨sch, dim, p, ia, oa, lo, so, cb⟩
  cases sch <;> exact ⟨rfl, rfl⟩

/-- Claim C8: `RTCKernel::launch` performs the limits check first; a limit
violation produces an error with the driver launch never invoked; when the
check passes the driver launch is issued after it, and a driver failure is
surfaced as an explicit error. -/
theorem launch_limits_before_driver (kn : String) (limitsOk driverOk : Bool) :
    (limitsOk = false →
       (∃ e, (RTCKernel.launch kn limitsOk driverOk).1 = Except.error e)
       ∧ LaunchEvent.driverLaunch ∉ (RTCKernel.launch kn limitsOk driverOk).2)
    ∧ (limitsOk = true →
       (RTCKernel.launch kn limitsOk driverOk).2
         = [LaunchEvent.limitsCheck, LaunchEvent.driverLaunch])
    ∧ (limitsOk = true → driverOk = false →
       (RTCKernel.launch kn limitsOk driverOk).1
         = Except.error "hipModuleLaunchKernel failure")
    ∧ (limitsOk = true → driverOk = true →
       (RTCKernel.launch kn limitsOk driverOk).1 = Except.ok ()) := by
  cases limitsOk <;> cases driverOk <;>
    simp [RTCKernel.launch, launch_limits_check]

/-- Witness for C8 at a violated limit: the driver launch does not appear in
the event trace and the call errors out. -/
theorem launch_limits_before_driver_witness :
    (∃ e, (RTCKernel.launch "k" false true).1 = Except.error e)
    ∧ LaunchEvent.driverLaunch ∉ (RTCKernel.launch "k" false true).2 :=
  (launch_limits_before_driver "k" false true).1 rfl

/-- Claim C1: `runtime_compile` tries the kernel families in the fixed
priority order Stockham, transpose, real/complex copy, even-length,
even-length-with-transpose, Bluestein single, Bluestein multi, and stops at
the first family whose `generate_from_node` accepts the stage: the chosen
generator is that family's, and the families actually invoked are exactly
the priority-order prefix ending at it — no later family's generator is
invoked. -/
theorem runtime_compile_first_match (gen : RTCFamily → RTCGenerator)
    (f : RTCFamily) (hv : (gen f).valid = true)
    (hfirst : ∀ f', family_rank f' < family_rank f → (gen f').valid = false) :
    runtime_compile_dispatch gen
      = (gen f, family_order.take (family_rank f + 1)) := by
  have h0 := fun h => hfirst RTCFamily.RTCKernelStockham h
  have h1 := fun h => hfirst RTCFamily.RTCKernelTranspose h
  have h2 := fun h => hfirst RTCFamily.RTCKernelRealComplex h
  have h3 := fun h => hfirst RTCFamily.RTCKernelRealComplexEven h
  have h4 := fun h => hfirst RTCFamily.RTCKernelRealComplexEvenTranspose h
  have h5 := fun h => hfirst RTCFamily.RTCKernelBluesteinSingle h
  cases f with
  | RTCKernelStockham =>
    simp [runtime_compile_dispatch, hv, family_rank]
  | RTCKernelTranspose =>
    simp [runtime_compile_dispatch, hv, h0 (by decide), family_rank]
  | RTCKernelRealComplex =>
    simp [runtime_compile_dispatch, hv, h0 (by decide), h1 (by decide), family_rank]
  | RTCKernelRealComplexEven =>
    simp [runtime_compile_dispatch, hv, h0 (by decide), h1 (by decide),
      h2 (by decide), family_rank]
  | RTCKernelRealComplexEvenTranspose =>
    simp [runtime_compile_dispatch, hv, h0 (by decide), h1 (by decide),
      h2 (by decide), h3 (by decide), family_rank]
  | RTCKernelBluesteinSingle =>
    simp [runtime_compile_dispatch, hv, h0 (by decide), h1 (by decide),
      h2 (by decide), h3 (by decide), h4 (by decide), family_rank]
  | RTCKernelBluesteinMulti =>
    simp [runtime_compile_dispatch, hv, h0 (by decide), h1 (by decide),
      h2 (by decide), h3 (by decide), h4 (by decide), h5 (by decide), family_rank]

/-- An environment in which only the real/complex copy family accepts the
stage. -/
def genRealComplexOnly : RTCFamily → RTCGenerator := fun f =>
  if f = RTCFamily.RTCKernelRealComplex then
    ⟨true, false, "r2c_copy_rtc_dim2_fp32_CI_CI"⟩
  else ⟨false, false, ""⟩

/-- Witness for C1: with only the copy family valid, the chain invokes
exactly Stockham, transpose, then the copy family, and returns the copy
family's generator. -/
theorem runtime_compile_first_match_witness :
    runtime_compile_dispatch genRealComplexOnly
      = (genRealComplexOnly RTCFamily.RTCKernelRealComplex,
         family_order.take (family_rank RTCFamily.RTCKernelRealComplex + 1)) :=
  runtime_compile_first_match genRealComplexOnly RTCFamily.RTCKernelRealComplex
    (by decide)
    (by intro f' h; revert h; cases f' <;> decide)

/-- Claim C3: when runtime compilation is disabled, or when no family of the
dispatch chain accepts the stage, `runtime_compile` neither throws nor
compiles anything and returns a (ready) future holding a null kernel,
signalling the caller to fall back to a statically compiled kernel. -/
theorem runtime_compile_null_fallback (rtcEnabled deviceOk : Bool)
    (gen : RTCFamily → RTCGenerator)
    (h : rtcEnabled = false ∨ (deviceOk = true ∧ ∀ f, (gen f).valid = false)) :
    RTCKernel.runtime_compile rtcEnabled deviceOk gen
      = Except.ok ⟨none, []⟩ := by
  rcases h with h | ⟨hd, hall⟩
  · simp [RTCKernel.runtime_compile, h]
  · simp [RTCKernel.runtime_compile, runtime_compile_dispatch, hd,
      hall RTCFamily.RTCKernelStockham,
      hall RTCFamily.RTCKernelTranspose,
      hall RTCFamily.RTCKernelRealComplex,
      hall RTCFamily.RTCKernelRealComplexEven,
      hall RTCFamily.RTCKernelRealComplexEvenTranspose,
      hall RTCFamily.RTCKernelBluesteinSingle,
      hall RTCFamily.RTCKernelBluesteinMulti]

/-- An environment in which no family accepts the stage. -/
def genNoneValid : RTCFamily → RTCGenerator := fun _ => ⟨false, false, ""⟩

/-- Witness for C3: with runtime compilation enabled but no valid family,
the result is a null kernel with no compile scheduled and no error. -/
theorem runtime_compile_null_fallback_witness :
    RTCKernel.runtime_compile true true genNoneValid = Except.ok ⟨none, []⟩ :=
  runtime_compile_null_fallback true true genNoneValid
    (Or.inr ⟨rfl, fun f => by cases f <;> rfl⟩)

/-- Claim C5: in the hermitian-to-complex kernel, a (batch-valid) thread
whose fastest-dimension index is a self-conjugate boundary point (`is0 == 0`
or `is0 * 2 == lengths0`) writes only the direct element; every other
thread writes the direct element and, at the conjugate-mirror offset, the
same element with negated imaginary component. -/
theorem herm2c_thread_write_behavior (a : Herm2CArgs) (input : Nat → CVal)
    (g : Nat) (hs : 0 < a.hermitian_size)
    (hb : (herm2c_indices a g).2.2.2 < a.nbatch) :
    (g % a.hermitian_size = 0 ∨ (g % a.hermitian_size) * 2 = a.lengths0 →
      herm2c_thread_writes a input g
        = [(herm2c_direct_offset a g, input (herm2c_input_offset a g))])
    ∧ (¬(g % a.hermitian_size = 0 ∨ (g % a.hermitian_size) * 2 = a.lengths0) →
      herm2c_thread_writes a input g
        = [(herm2c_direct_offset a g, input (herm2c_input_offset a g)),
           (herm2c_conj_offset a g,
            CVal.mk (input (herm2c_input_offset a g)).re
                    (-(input (herm2c_input_offset a g)).im))]) := by
  have hnb : ¬ a.nbatch ≤ (herm2c_indices a g).2.2.2 := Nat.not_le.mpr hb
  have hmod : g % a.hermitian_size < a.hermitian_size := Nat.mod_lt _ hs
  constructor
  · intro hcase
    simp only [herm2c_thread_writes, if_neg hnb, if_pos hcase]
  · intro hcase
    simp only [herm2c_thread_writes, if_neg hnb, if_neg hcase, if_pos hmod]

/-- Concrete arguments for the C5 witness: 1-D transform of length 4 with
hermitian length 3 and contiguous strides. -/
def herm2cArgsW : Herm2CArgs :=
  ⟨3, 4, 1, 1, 1, 1, 1, 3, 3, 3, 1, 4, 4, 4⟩

/-- Concrete input buffer for the C5 witness. -/
def herm2cInputW : Nat → CVal := fun n => ⟨Int.ofNat n, Int.ofNat n + 7⟩

/-- Witness for C5: thread with flat index 1 (a non-boundary index) writes
the direct element and the conjugated element at the mirror offset. -/
theorem herm2c_thread_write_behavior_witness :
    herm2c_thread_writes herm2cArgsW herm2cInputW 1
      = [(herm2c_direct_offset herm2cArgsW 1,
          herm2cInputW (herm2c_input_offset herm2cArgsW 1)),
         (herm2c_conj_offset herm2cArgsW 1,
          CVal.mk (herm2cInputW (herm2c_input_offset herm2cArgsW 1)).re
                  (-(herm2cInputW (herm2c_input_offset herm2cArgsW 1)).im))] :=
  (herm2c_thread_write_behavior herm2cArgsW herm2cInputW 1 (by decide)
    (by decide)).2 (by decide)

/-- Claim C7: in the even-length post-process kernel every valid index is
handled by exactly one code path: the `idx_p == 0` branch alone covers the
`p == 0` boundary pair, its `Ndiv4` sub-block alone covers the quarter
point (which differs from the boundary indexes), and the general butterfly
branch, active for `0 < idx_p < quarter_N`, never touches any of those
boundary indexes. -/
theorem even_post_boundary_exclusive (half_N : Nat) (Ndiv4 : Bool)
    (hpos : 0 < half_N) (hdiv : Ndiv4 = true → half_N % 2 = 0) :
    (even_post_thread_writes half_N Ndiv4 0
       = [half_N, 0] ++ (if Ndiv4 then [(half_N + 1) / 2] else []))
    ∧ (Ndiv4 = true →
        (half_N + 1) / 2 ≠ 0 ∧ (half_N + 1) / 2 ≠ half_N)
    ∧ (∀ idx_p, 0 < idx_p → idx_p < (half_N + 1) / 2 →
        even_post_thread_writes half_N Ndiv4 idx_p = [idx_p, half_N - idx_p]
        ∧ 0 ∉ even_post_thread_writes half_N Ndiv4 idx_p
        ∧ half_N ∉ even_post_thread_writes half_N Ndiv4 idx_p
        ∧ (Ndiv4 = true →
            (half_N + 1) / 2 ∉ even_post_thread_writes half_N Ndiv4 idx_p)) := by
  refine ⟨?_, ?_, ?_⟩
  · have hq : 0 < (half_N + 1) / 2 := by omega
    simp only [even_post_thread_writes, if_pos hq]
    simp
  · intro hN
    have := hdiv hN
    omega
  · intro idx_p hp hq
    have hrw : even_post_thread_writes half_N Ndiv4 idx_p
        = [idx_p, half_N - idx_p] := by
      simp only [even_post_thread_writes, if_pos hq, if_neg (Nat.pos_iff_ne_zero.mp hp)]
    refine ⟨hrw, ?_, ?_, ?_⟩
    · rw [hrw]; simp; omega
    · rw [hrw]; simp; omega
    · intro hN
      have := hdiv hN
      rw [hrw]; simp; omega

/-- Witness for C7 at `half_N = 4`, `Ndiv4 = true`, butterfly thread
`idx_p = 1`. -/
theorem even_post_boundary_exclusive_witness :
    even_post_thread_writes 4 true 1 = [1, 4 - 1]
    ∧ 0 ∉ even_post_thread_writes 4 true 1
    ∧ 4 ∉ even_post_thread_writes 4 true 1
    ∧ (true = true → (4 + 1) / 2 ∉ even_post_thread_writes 4 true 1) :=
  (even_post_boundary_exclusive 4 true (by decide) (fun _ => by decide)).2.2
    1 (by decide) (by decide)

/-- Claim C10: for every spec accepted by the copy-family source generator,
the generated body is the flat-index decomposition, then (immediately,
after only the accompanying comment) the guard
`if (idx_batch >= nbatch) return;`, then the rest of the kernel; no
statement before the guard loads from or stores to the input or output
buffers, so every excess thread returns before any global memory access. -/
theorem copy_batch_guard_guards_accesses (specs : RealComplexSpecs)
    (_hscheme : isCopyScheme specs.scheme = true)
    (_hdim1 : 1 ≤ specs.dim) (_hdim3 : specs.dim ≤ 3) :
    (∃ rest, r2c_copy_body specs
        = r2c_index_decomp specs
          ++ [GStmt.comment, GStmt.batchGuardRet] ++ rest)
    ∧ GStmt.listAccessesGlobal (r2c_index_decomp specs) = false := by
  constructor
  · refine ⟨r2c_copy_rest specs, ?_⟩
    simp only [r2c_copy_body, r2c_index_decomp, List.append_assoc,
      List.cons_append, List.nil_append]
  · unfold r2c_index_decomp
    by_cases h1 : 1 < specs.dim <;> by_cases h2 : 2 < specs.dim <;>
      simp [h1, h2, GStmt.listAccessesGlobal, GStmt.accessesGlobal]

/-- Concrete spec for the C10 witness: 2-D complex-to-hermitian copy. -/
def copySpecW : RealComplexSpecs :=
  ⟨ComputeScheme.CS_KERNEL_COPY_CMPLX_TO_HERM, 2, Precision.single,
   ArrayType.complex_interleaved, ArrayType.hermitian_interleaved,
   false, false, CallbackType.NONE⟩

/-- Witness for C10 at the concrete 2-D complex-to-hermitian spec. -/
theorem copy_batch_guard_guards_accesses_witness :
    (∃ rest, r2c_copy_body copySpecW
        = r2c_index_decomp copySpecW
          ++ [GStmt.comment, GStmt.batchGuardRet] ++ rest)
    ∧ GStmt.listAccessesGlobal (r2c_index_decomp copySpecW) = false :=
  copy_batch_guard_guards_accesses copySpecW (by decide) (by decide) (by decide)

/-- Concrete even-transpose spec used to refute C4 as stated: forward
post-process with 64x64 tiles, single precision. -/
def transposeSpecCE : RealComplexEvenTransposeSpecs :=
  ⟨ComputeScheme.CS_KERNEL_R_TO_CMPLX_TRANSPOSE, 64, 64, Precision.single,
   ArrayType.real, ArrayType.hermitian_interleaved, false, false,
   CallbackType.NONE⟩

/-- Counterexample to C4 as stated: the even-length-with-transpose family's
generated name contains no dimensionality tag at all (a tile-size tag takes
its place), so it is not a concatenation of mnemonic, dimensionality tag,
precision tag, layout tags, load/store suffix and callback tag. -/
theorem even_transpose_name_lacks_dim_tag :
    ¬ ∃ m d : String,
        okString (realcomplex_even_transpose_rtc_kernel_name transposeSpecCE)
          = m ++ ("_dim" ++ d) := by
  rintro ⟨m, d, h⟩
  have hdata :
      (okString (realcomplex_even_transpose_rtc_kernel_name transposeSpecCE)).data
        = m.data ++ ("_dim".data ++ d.data) := by
    rw [h]
    simp [String.data_append]
  have hc := charsContain_of_append m.data "_dim".data d.data
  rw [← hdata] at hc
  have hno : charsContain "_dim".data
      (okString (realcomplex_even_transpose_rtc_kernel_name transposeSpecCE)).data
      = false := by decide
  rw [hno] at hc
  exact Bool.false_ne_true hc

/-- Amended claim C4: every family's generated name is a fixed-order
concatenation ending with precision tag, input layout tag, output layout
tag, load/store-operation suffix, and callback-type tag; the copy family
starts with mnemonic then dimensionality tag; the even family starts with
mnemonic, an `_Ndiv4` flag when set, then the dimensionality tag; the
even-transpose family starts with mnemonic then a tile-size tag in place of
a dimensionality tag. -/
theorem realcomplex_kernel_name_shapes :
    (∀ s : RealComplexSpecs, isCopyScheme s.scheme = true →
      realcomplex_rtc_kernel_name s
        = Except.ok (copy_mnemonic s.scheme
            ++ "_dim" ++ toString s.dim
            ++ rtc_precision_name s.precision
            ++ rtc_array_type_name s.inArrayType
            ++ rtc_array_type_name s.outArrayType
            ++ load_store_name_suffix s.loadOps s.storeOps
            ++ rtc_cbtype_name s.cbtype))
    ∧ (∀ s : RealComplexEvenSpecs,
        s.scheme = ComputeScheme.CS_KERNEL_R_TO_CMPLX
          ∨ s.scheme = ComputeScheme.CS_KERNEL_CMPLX_TO_R →
      realcomplex_even_rtc_kernel_name s
        = Except.ok (even_mnemonic s.scheme
            ++ (if s.Ndiv4 then "_Ndiv4" else "")
            ++ "_dim" ++ toString s.dim
            ++ rtc_precision_name s.precision
            ++ rtc_array_type_name s.inArrayType
            ++ rtc_array_type_name s.outArrayType
            ++ load_store_name_suffix s.loadOps s.storeOps
            ++ rtc_cbtype_name s.cbtype))
    ∧ (∀ s : RealComplexEvenTransposeSpecs,
        s.scheme = ComputeScheme.CS_KERNEL_R_TO_CMPLX_TRANSPOSE
          ∨ s.scheme = ComputeScheme.CS_KERNEL_TRANSPOSE_CMPLX_TO_R →
      realcomplex_even_transpose_rtc_kernel_name s
        = Except.ok (even_transpose_mnemonic s.scheme
            ++ "_tile" ++ toString s.TileX ++ "x" ++ toString s.TileY
            ++ rtc_precision_name s.precision
            ++ rtc_array_type_name s.inArrayType
            ++ rtc_array_type_name s.outArrayType
            ++ load_store_name_suffix s.loadOps s.storeOps
            ++ rtc_cbtype_name s.cbtype)) := by
  refine ⟨?_, ?_, ?_⟩
  · intro s h
    rcases s with ⟨sch, dim, p, ia, oa, lo, so, cb⟩
    cases sch <;> first
      | rfl
      | simp [isCopyScheme] at h
  · intro s h
    rcases s with ⟨sch, dim, p, ia, oa, lo, so, cb, n4⟩
    cases sch <;> first
      | rfl
      | simp at h
  · intro s h
    rcases s with ⟨sch, tx, ty, p, ia, oa, lo, so, cb⟩
    cases sch <;> first
      | rfl
      | simp at h

/-- Concrete copy spec for the C4 witness. -/
def copySpecNameW : RealComplexSpecs :=
  ⟨ComputeScheme.CS_KERNEL_COPY_R_TO_CMPLX, 2, Precision.single,
   ArrayType.real, ArrayType.complex_interleaved, false, false,
   CallbackType.NONE⟩

/-- Concrete even spec for the C4 witness. -/
def evenSpecNameW : RealComplexEvenSpecs :=
  ⟨ComputeScheme.CS_KERNEL_R_TO_CMPLX, 1, Precision.double,
   ArrayType.complex_interleaved, ArrayType.hermitian_interleaved,
   false, false, CallbackType.NONE, true⟩

/-- Witness for amended C4: the name shapes at concrete specs of each
family. -/
theorem realcomplex_kernel_name_shapes_witness :
    realcomplex_rtc_kernel_name copySpecNameW
      = Except.ok (copy_mnemonic copySpecNameW.scheme
          ++ "_dim" ++ toString copySpecNameW.dim
          ++ rtc_precision_name copySpecNameW.precision
          ++ rtc_array_type_name copySpecNameW.inArrayType
          ++ rtc_array_type_name copySpecNameW.outArrayType
          ++ load_store_name_suffix copySpecNameW.loadOps copySpecNameW.storeOps
          ++ rtc_cbtype_name copySpecNameW.cbtype)
    ∧ realcomplex_even_rtc_kernel_name evenSpecNameW
      = Except.ok (even_mnemonic evenSpecNameW.scheme
          ++ (if evenSpecNameW.Ndiv4 then "_Ndiv4" else "")
          ++ "_dim" ++ toString evenSpecNameW.dim
          ++ rtc_precision_name evenSpecNameW.precision
          ++ rtc_array_type_name evenSpecNameW.inArrayType
          ++ rtc_array_type_name evenSpecNameW.outArrayType
          ++ load_store_name_suffix evenSpecNameW.loadOps evenSpecNameW.storeOps
          ++ rtc_cbtype_name evenSpecNameW.cbtype)
    ∧ realcomplex_even_transpose_rtc_kernel_name transposeSpecCE
      = Except.ok (even_transpose_mnemonic transposeSpecCE.scheme
          ++ "_tile" ++ toString transposeSpecCE.TileX
          ++ "x" ++ toString transposeSpecCE.TileY
          ++ rtc_precision_name transposeSpecCE.precision
          ++ rtc_array_type_name transposeSpecCE.inArrayType
          ++ rtc_array_type_name transposeSpecCE.outArrayType
          ++ load_store_name_suffix transposeSpecCE.loadOps transposeSpecCE.storeOps
          ++ rtc_cbtype_name transposeSpecCE.cbtype) :=
  ⟨realcomplex_kernel_name_shapes.1 copySpecNameW (by decide),
   realcomplex_kernel_name_shapes.2.1 evenSpecNameW (Or.inl rfl),
   realcomplex_kernel_name_shapes.2.2 transposeSpecCE (Or.inl rfl)⟩
